import Mathlib

/-!
Verification of the number-guessing game (`src/main.rs`).

The program generates a secret number in `1..=100`, prints a banner and a
debug line revealing the secret, then loops: print a prompt, read a line
(`expect "Failed to read line"` aborts on a read error), trim it, parse it
as `u32` (`continue` on a parse error), echo the accepted guess, compare it
to the secret and print one of three feedback messages, breaking out of the
loop on equality.

The embedding below models each of these pieces directly from the source:
`u32_from_str` is Rust's `u32::from_str`, `str_trim` is `str::trim`,
`iterate` is the body of one loop iteration after a successful read, and
`runLoop` / `runGame` drive the loop over a list of read events, where a
read event is `some line` (a successful `read_line`) or `none` (a failed
read, on which `expect` panics).
-/

namespace GuessingGame

/-- `u32::MAX`, the largest value `u32::from_str` accepts. -/
def U32_MAX : Nat := 4294967295

/-- `char::to_digit(10)`: the numeric value of an ASCII decimal digit. -/
def to_digit10 (c : Char) : Option Nat :=
  if '0' ≤ c ∧ c ≤ '9' then some (c.toNat - '0'.toNat) else none

/-- One step of Rust's integer parsing loop: `checked_mul` by 10 then
`checked_add` of the next digit, failing on a non-digit or on overflow
past `u32::MAX`. -/
def pushDigit (acc : Option Nat) (c : Char) : Option Nat :=
  match acc, to_digit10 c with
  | some a, some d =>
      let v := a * 10 + d
      if v ≤ U32_MAX then some v else none
  | _, _ => none

/-- Rust's `u32::from_str`: an optional leading `'+'` sign followed by a
non-empty run of decimal digits whose value fits in `u32`; the empty
string, a lone sign, a `'-'` sign (rejected for unsigned types), any
non-digit character, and overflow all fail. -/
def u32_from_str (cs : List Char) : Option Nat :=
  match cs with
  | [] => none
  | '+' :: ds => if ds.isEmpty then none else ds.foldl pushDigit (some 0)
  | _ => cs.foldl pushDigit (some 0)

/-- Rust's `char::is_whitespace`: the Unicode `White_Space` code points. -/
def is_rust_whitespace (c : Char) : Bool :=
  decide ((0x09 ≤ c.toNat ∧ c.toNat ≤ 0x0D) ∨ c.toNat = 0x20 ∨
    c.toNat = 0x85 ∨ c.toNat = 0xA0 ∨ c.toNat = 0x1680 ∨
    (0x2000 ≤ c.toNat ∧ c.toNat ≤ 0x200A) ∨ c.toNat = 0x2028 ∨
    c.toNat = 0x2029 ∨ c.toNat = 0x202F ∨ c.toNat = 0x205F ∨
    c.toNat = 0x3000)

/-- Rust's `str::trim`: remove leading and trailing whitespace. -/
def str_trim (cs : List Char) : List Char :=
  ((cs.dropWhile is_rust_whitespace).reverse.dropWhile is_rust_whitespace).reverse

/-- `guess.trim().parse::<u32>()` applied to one input line. -/
def parseGuess (line : String) : Option Nat :=
  u32_from_str (str_trim line.data)

/-- `println!("Guess the Number")`. -/
def banner : String := "Guess the Number"

/-- `println!("The secret number is {secret_number}")`. -/
def secretLine (s : Nat) : String := "The secret number is " ++ toString s

/-- `println!("Please input you guess")`, printed at the top of every
loop iteration, before the read. -/
def prompt : String := "Please input you guess"

/-- `println!("You guessed: {guess}")`. -/
def echoMsg (g : Nat) : String := "You guessed: " ++ toString g

/-- The message passed to `expect` on the `read_line` result. -/
def readFailMsg : String := "Failed to read line"

/-- The loop body after a successful read of `line`, with the secret
fixed: parse the trimmed line (`Err(_) => continue` produces no output),
echo the accepted guess, then match `guess.cmp(&secret_number)` and print
the feedback; the Boolean is `true` exactly when the `Equal` arm runs
`break`. -/
def iterate (secret : Nat) (line : String) : List String × Bool :=
  match parseGuess line with
  | none => ([], false)
  | some guess =>
      match compare guess secret with
      | Ordering.lt => ([echoMsg guess, "Too small!!"], false)
      | Ordering.gt => ([echoMsg guess, "Too big!!"], false)
      | Ordering.eq => ([echoMsg guess, "You win!!"], true)

/-- Outcome of running the loop on a list of read events: `won` when the
`break` was reached, `crashed` when `expect` panicked on a failed read
(the crash message goes to stderr, the `List String` is the stdout so
far), `pending` when the events ran out with the program still blocked
on `read_line`. -/
inductive RunResult where
  | won (out : List String)
  | crashed (out : List String) (msg : String)
  | pending (out : List String)
deriving DecidableEq

/-- Prepend already-printed stdout lines to the outcome of the rest of
the run. -/
def RunResult.prependOut (p : List String) : RunResult → RunResult
  | RunResult.won o => RunResult.won (p ++ o)
  | RunResult.crashed o m => RunResult.crashed (p ++ o) m
  | RunResult.pending o => RunResult.pending (p ++ o)

/-- The `loop` from the source, driven by a list of read events:
each iteration prints the prompt, then a failed read (`none`) aborts with
`readFailMsg`, and a successful read runs `iterate`; when the body did
not `break`, the loop goes round again on the remaining events. -/
def runLoop (secret : Nat) : List (Option String) → RunResult
  | [] => RunResult.pending [prompt]
  | none :: _ => RunResult.crashed [prompt] readFailMsg
  | some line :: rest =>
      match iterate secret line with
      | (outs, true) => RunResult.won (prompt :: outs)
      | (outs, false) => RunResult.prependOut (prompt :: outs) (runLoop secret rest)

/-- The whole of `main` for a fixed secret: banner, debug line revealing
the secret, then the loop. -/
def runGame (secret : Nat) (events : List (Option String)) : RunResult :=
  RunResult.prependOut [banner, secretLine secret] (runLoop secret events)

/-- The mutable-looking state of the loop: the (immutable) secret binding
and whether `break` has run. -/
structure GameState where
  secret : Nat
  done : Bool
deriving DecidableEq

/-- One loop iteration as a state transformer: a finished game does
nothing, otherwise print the prompt, run the body, and record whether
`break` ran. -/
def step (st : GameState) (line : String) : GameState × List String :=
  if st.done then (st, [])
  else
    match iterate st.secret line with
    | (outs, won) => ({ st with done := won }, prompt :: outs)

/-- Fold `step` over a list of input lines. -/
def runSteps (st : GameState) : List String → GameState
  | [] => st
  | l :: ls => runSteps (step st l).1 ls

/-- Modelled from the spec: the `rand` crate is not part of this
repository, so `rand::thread_rng().gen_range(1..=100)` is modelled as a
function of an environment-provided seed returning an integer in the
closed range `[1, 100]`, inclusive on both bounds. -/
def gen_range_1_100 (seed : Nat) : Nat := 1 + seed % 100

/-- `main` itself: the secret is generated once, before the first loop
iteration, and that single value is used by the whole run. -/
def mainProgram (seed : Nat) (events : List (Option String)) : RunResult :=
  runGame (gen_range_1_100 seed) events

/-- The stdout of a run, whichever way it ended. -/
def RunResult.out : RunResult → List String
  | RunResult.won o => o
  | RunResult.crashed o _ => o
  | RunResult.pending o => o

/-- The mathematical value denoted by a decimal digit string read from
an accumulator: the number the digits denote, most significant first,
with no overflow check — the reference meaning a parsed guess is
compared against. -/
def decimalValueFrom (a : Nat) (ds : List Char) : Nat :=
  ds.foldl (fun acc c => acc * 10 + (c.toNat - '0'.toNat)) a

/-- The mathematical value denoted by a decimal digit string. -/
def decimalValue (ds : List Char) : Nat :=
  decimalValueFrom 0 ds

/-! ### Helper lemmas about one iteration -/

theorem iterate_parse_none {s : Nat} {line : String} (h : parseGuess line = none) :
    iterate s line = ([], false) := by
  simp [iterate, h]

theorem iterate_parse_some {s g : Nat} {line : String} (h : parseGuess line = some g) :
    iterate s line =
      (if g < s then ([echoMsg g, "Too small!!"], false)
       else if s < g then ([echoMsg g, "Too big!!"], false)
       else ([echoMsg g, "You win!!"], true)) := by
  simp only [iterate, h]
  rcases Nat.lt_trichotomy g s with hl | he | hg
  · rw [Nat.compare_eq_lt.2 hl]
    simp [hl]
  · subst he
    rw [Nat.compare_eq_eq.2 rfl]
    simp
  · rw [Nat.compare_eq_gt.2 hg]
    simp [Nat.lt_asymm hg, hg]

theorem iterate_won_iff (s : Nat) (line : String) :
    (iterate s line).2 = true ↔ parseGuess line = some s := by
  cases hp : parseGuess line with
  | none => simp [iterate_parse_none hp]
  | some g =>
      rw [iterate_parse_some hp]
      rcases Nat.lt_trichotomy g s with hl | he | hg
      · simp [hl, Nat.ne_of_lt hl]
      · subst he
        simp
      · simp [Nat.lt_asymm hg, hg, Nat.ne_of_gt hg]

theorem iterate_won_out {s : Nat} {line : String} {outs : List String}
    (h : iterate s line = (outs, true)) : outs = [echoMsg s, "You win!!"] := by
  have hp : parseGuess line = some s := by
    rw [← iterate_won_iff s line, h]
  have := iterate_parse_some (s := s) hp
  rw [h] at this
  simp at this
  exact this

theorem decimalValueFrom_cons (a : Nat) (c : Char) (cs : List Char) :
    decimalValueFrom a (c :: cs) =
      decimalValueFrom (a * 10 + (c.toNat - '0'.toNat)) cs := rfl

theorem le_decimalValueFrom (cs : List Char) (a : Nat) :
    a ≤ decimalValueFrom a cs := by
  induction cs generalizing a with
  | nil => exact Nat.le_refl a
  | cons c cs ih =>
      rw [decimalValueFrom_cons]
      exact Nat.le_trans (by omega) (ih (a * 10 + (c.toNat - '0'.toNat)))

theorem foldl_pushDigit (ds : List Char) : ∀ a : Nat,
    (∀ c ∈ ds, '0' ≤ c ∧ c ≤ '9') →
    decimalValueFrom a ds ≤ U32_MAX →
    ds.foldl pushDigit (some a) = some (decimalValueFrom a ds) := by
  induction ds with
  | nil =>
      intro a _ _
      rfl
  | cons c cs ih =>
      intro a hdig hle
      obtain ⟨h0, h9⟩ := hdig c (List.mem_cons_self _ _)
      rw [decimalValueFrom_cons] at hle ⊢
      have hv : a * 10 + (c.toNat - '0'.toNat) ≤ U32_MAX :=
        Nat.le_trans (le_decimalValueFrom cs _) hle
      have hpush : pushDigit (some a) c =
          some (a * 10 + (c.toNat - '0'.toNat)) := by
        simp [pushDigit, to_digit10, h0, h9]
        exact hv
      rw [List.foldl_cons, hpush]
      exact ih _ (fun x hx => hdig x (List.mem_cons_of_mem _ hx)) hle

theorem u32_from_str_plus (ds : List Char) (hne : ds ≠ [])
    (hdig : ∀ c ∈ ds, '0' ≤ c ∧ c ≤ '9')
    (hle : decimalValue ds ≤ U32_MAX) :
    u32_from_str ('+' :: ds) = some (decimalValue ds) := by
  obtain ⟨d, ds2, rfl⟩ := List.exists_cons_of_ne_nil hne
  exact foldl_pushDigit _ 0 hdig hle

theorem RunResult.out_prependOut (p : List String) (r : RunResult) :
    (RunResult.prependOut p r).out = p ++ r.out := by
  cases r <;> rfl

theorem RunResult.prependOut_eq_won {p : List String} {r : RunResult}
    {out : List String} :
    RunResult.prependOut p r = RunResult.won out ↔
      ∃ o, r = RunResult.won o ∧ out = p ++ o := by
  cases r <;> simp [RunResult.prependOut, eq_comm]

theorem RunResult.prependOut_crashed {p : List String} {r : RunResult}
    {out : List String} {m : String}
    (h : RunResult.prependOut p r = RunResult.crashed out m) :
    ∃ o, r = RunResult.crashed o m ∧ out = p ++ o := by
  cases r with
  | won o => exact RunResult.noConfusion h
  | pending o => exact RunResult.noConfusion h
  | crashed o m2 =>
      injection h with h1 h2
      exact ⟨o, by rw [h2], h1.symm⟩

theorem step_secret_eq (st : GameState) (line : String) :
    ((step st line).1).secret = st.secret := by
  by_cases hd : st.done
  · simp [step, hd]
  · rcases h : iterate st.secret line with ⟨outs, won⟩
    simp [step, hd, h]

theorem runLoop_won_out {s : Nat} {evs : List (Option String)} {out : List String}
    (h : runLoop s evs = RunResult.won out) :
    out.head? = some prompt ∧ out.getLast? = some "You win!!" := by
  induction evs generalizing out with
  | nil => simp [runLoop] at h
  | cons e rest ih =>
      cases e with
      | none => simp [runLoop] at h
      | some line =>
          rcases hi : iterate s line with ⟨outs, won⟩
          cases won with
          | true =>
              simp only [runLoop, hi] at h
              injection h with h
              subst h
              rw [iterate_won_out hi]
              exact ⟨rfl, rfl⟩
          | false =>
              simp only [runLoop, hi] at h
              rw [RunResult.prependOut_eq_won] at h
              obtain ⟨o, hr, rfl⟩ := h
              obtain ⟨h1, h2⟩ := ih hr
              refine ⟨rfl, ?_⟩
              rw [List.getLast?_append, h2]
              rfl

/-! ### Claim theorems -/

/-- C1: for every input line whose trimmed text parses as an unsigned
integer guess `g`, the iteration emits the echo and then exactly one of
the three feedback messages, determined solely by the unsigned comparison
of `g` with the secret `s`: "Too small!!" if `g < s`, "Too big!!" if
`g > s`, and "You win!!" if `g = s`. -/
theorem c1_feedback_trichotomy (s g : Nat) (line : String)
    (h : parseGuess line = some g) :
    (iterate s line).1 = [echoMsg g,
      if g < s then "Too small!!" else if s < g then "Too big!!" else "You win!!"] := by
  rw [iterate_parse_some h]
  rcases Nat.lt_trichotomy g s with hl | he | hg
  · simp [hl]
  · subst he
    simp
  · simp [Nat.lt_asymm hg, hg]

/-- C1 witness: secret 5, input "3" parses to 3 and yields "Too small!!". -/
theorem c1_feedback_trichotomy_witness :
    (iterate 5 "3").1 = [echoMsg 3,
      if 3 < 5 then "Too small!!" else if 5 < 3 then "Too big!!" else "You win!!"] :=
  c1_feedback_trichotomy 5 3 "3" (by rfl)

/-- C2: the loop terminates normally after, and only after, an iteration
whose parsed guess equals the secret: the `break` flag of one iteration
is set iff the parsed guess equals the secret, and the whole run is won
iff the read events hold a line parsing to the secret that is preceded
only by successfully read lines not parsing to the secret — every
non-equal or parse-failing iteration goes back to prompting. -/
theorem c2_termination_iff_equal (s : Nat) (evs : List (Option String)) :
    (∀ line, ((iterate s line).2 = true ↔ parseGuess line = some s)) ∧
    ((∃ out, runLoop s evs = RunResult.won out) ↔
      ∃ pre line post, evs = pre ++ some line :: post ∧
        parseGuess line = some s ∧
        ∀ e ∈ pre, ∃ l, e = some l ∧ parseGuess l ≠ some s) := by
  refine ⟨iterate_won_iff s, ?_⟩
  induction evs with
  | nil =>
      constructor
      · rintro ⟨out, hout⟩
        simp [runLoop] at hout
      · rintro ⟨pre, line, post, heq, -, -⟩
        simp at heq
  | cons e rest ih =>
      cases e with
      | none =>
          constructor
          · rintro ⟨out, hout⟩
            simp [runLoop] at hout
          · rintro ⟨pre, line, post, heq, hline, hpre⟩
            cases pre with
            | nil => simp at heq
            | cons p pre2 =>
                rw [List.cons_append] at heq
                injection heq with h1 h2
                obtain ⟨l, hl, -⟩ := hpre p (List.mem_cons_self _ _)
                rw [← h1] at hl
                exact Option.noConfusion hl
      | some line =>
          rcases hi : iterate s line with ⟨outs, won⟩
          cases won with
          | true =>
              have hps : parseGuess line = some s := by
                rw [← iterate_won_iff s line, hi]
              constructor
              · intro _
                exact ⟨[], line, rest, by simp, hps, by simp⟩
              · intro _
                refine ⟨prompt :: outs, ?_⟩
                simp [runLoop, hi]
          | false =>
              have hps : parseGuess line ≠ some s := by
                intro hc
                have hw := (iterate_won_iff s line).2 hc
                rw [hi] at hw
                simp at hw
              constructor
              · rintro ⟨out, hout⟩
                simp only [runLoop, hi] at hout
                rw [RunResult.prependOut_eq_won] at hout
                obtain ⟨o, hr, -⟩ := hout
                obtain ⟨pre, l2, post, heq, hl2, hpre⟩ := ih.mp ⟨o, hr⟩
                refine ⟨some line :: pre, l2, post, ?_, hl2, ?_⟩
                · rw [List.cons_append, heq]
                · intro e he
                  rcases List.mem_cons.1 he with rfl | hmem
                  · exact ⟨line, rfl, hps⟩
                  · exact hpre e hmem
              · rintro ⟨pre, l2, post, heq, hl2, hpre⟩
                cases pre with
                | nil =>
                    simp only [List.nil_append] at heq
                    injection heq with h1 h2
                    injection h1 with h1
                    subst h1
                    exact absurd hl2 hps
                | cons p pre2 =>
                    rw [List.cons_append] at heq
                    injection heq with h1 h2
                    obtain ⟨o, hr⟩ := ih.mpr ⟨pre2, l2, post, h2, hl2,
                      fun e he => hpre e (List.mem_cons_of_mem _ he)⟩
                    refine ⟨(prompt :: outs) ++ o, ?_⟩
                    simp only [runLoop, hi]
                    rw [RunResult.prependOut_eq_won]
                    exact ⟨o, hr, rfl⟩

/-- C3: an input line whose trimmed text fails to parse as a `u32` is
silently abandoned: the loop body emits nothing (no feedback, no echo)
and does not `break`; as a state transformer the iteration leaves the
state (secret included) unchanged and emits only the prompt; and at the
whole-loop level the iteration contributes only its prompt to stdout and
never causes termination, the loop going on to the next read event. -/
theorem c3_silent_discard (s : Nat) (line : String) (rest : List (Option String))
    (st : GameState) (h : parseGuess line = none) (hd : st.done = false) :
    iterate s line = ([], false) ∧
    step st line = (st, [prompt]) ∧
    (runLoop s (some line :: rest)).out = prompt :: (runLoop s rest).out ∧
    (∀ out, runLoop s (some line :: rest) = RunResult.won out →
      ∃ o, runLoop s rest = RunResult.won o) := by
  refine ⟨iterate_parse_none h, ?_, ?_, ?_⟩
  · obtain ⟨sec, d⟩ := st
    simp only at hd
    subst hd
    simp [step, iterate_parse_none h]
  · simp only [runLoop, iterate_parse_none h]
    rw [RunResult.out_prependOut]
    rfl
  · intro out hout
    simp only [runLoop, iterate_parse_none h] at hout
    rw [RunResult.prependOut_eq_won] at hout
    obtain ⟨o, hr, -⟩ := hout
    exact ⟨o, hr⟩

/-- C3 witness: secret 5, the non-numeric line "abc" with one further
event pending, starting from the fresh state. -/
theorem c3_silent_discard_witness :
    iterate 5 "abc" = ([], false) ∧
    step ⟨5, false⟩ "abc" = (⟨5, false⟩, [prompt]) ∧
    (runLoop 5 (some "abc" :: [some "5"])).out = prompt :: (runLoop 5 [some "5"]).out ∧
    (∀ out, runLoop 5 (some "abc" :: [some "5"]) = RunResult.won out →
      ∃ o, runLoop 5 [some "5"] = RunResult.won o) :=
  c3_silent_discard 5 "abc" [some "5"] ⟨5, false⟩ (by rfl) (by rfl)

/-- C8: with secret 50 and input lines ["fifty", "50"], the run wins with
exactly one prompt and no feedback for the first line, and echo plus the
win feedback for the second; the first iteration leaves the state
unchanged. -/
theorem c8_malformed_then_win :
    runGame 50 [some "fifty", some "50"] =
      RunResult.won [banner, secretLine 50, prompt, prompt, echoMsg 50, "You win!!"] ∧
    step ⟨50, false⟩ "fifty" = (⟨50, false⟩, [prompt]) :=
  ⟨rfl, rfl⟩

/-- C9: on a successful parse the accepted guess is echoed back first,
immediately before the single feedback message of that iteration; on a
parse failure the loop body prints nothing at all, so the echo appears
only on successful parses. -/
theorem c9_echo_order (s g : Nat) (line : String) :
    (parseGuess line = some g → ∃ fb, (iterate s line).1 = [echoMsg g, fb] ∧
      (fb = "Too small!!" ∨ fb = "Too big!!" ∨ fb = "You win!!")) ∧
    (parseGuess line = none → (iterate s line).1 = []) := by
  constructor
  · intro h
    rw [iterate_parse_some h]
    rcases Nat.lt_trichotomy g s with hl | he | hg
    · exact ⟨"Too small!!", by simp [hl], Or.inl rfl⟩
    · subst he
      exact ⟨"You win!!", by simp, Or.inr (Or.inr rfl)⟩
    · exact ⟨"Too big!!", by simp [Nat.lt_asymm hg, hg], Or.inr (Or.inl rfl)⟩
  · intro h
    rw [iterate_parse_none h]

/-- C9 witness: secret 10 with the parsing line "7", and the failing
line "abc". -/
theorem c9_echo_order_witness :
    (∃ fb, (iterate 10 "7").1 = [echoMsg 7, fb] ∧
      (fb = "Too small!!" ∨ fb = "Too big!!" ∨ fb = "You win!!")) ∧
    (iterate 10 "abc").1 = [] :=
  ⟨(c9_echo_order 10 7 "7").1 (by rfl), (c9_echo_order 10 0 "abc").2 (by rfl)⟩

/-- C10: every input line whose trimmed text is a leading plus sign
followed by decimal digits whose value fits in `u32` parses successfully
to exactly that value, and is treated as a valid guess equal to it: the
iteration with such a line terminates the loop precisely when that value
equals the secret. -/
theorem c10_plus_sign_accepted (secret : Nat) (ds : List Char) (line : String)
    (hne : ds ≠ [])
    (hdig : ∀ c ∈ ds, '0' ≤ c ∧ c ≤ '9')
    (hle : decimalValue ds ≤ U32_MAX)
    (htrim : str_trim line.data = '+' :: ds) :
    parseGuess line = some (decimalValue ds) ∧
    ((iterate secret line).2 = true ↔ decimalValue ds = secret) := by
  have hp : parseGuess line = some (decimalValue ds) := by
    unfold parseGuess
    rw [htrim]
    exact u32_from_str_plus ds hne hdig hle
  refine ⟨hp, ?_⟩
  rw [iterate_won_iff, hp]
  simp

/-- C10 witness: the line "+42", whose trimmed text is '+' followed by
the digits "42", against secret 42. -/
theorem c10_plus_sign_accepted_witness :
    parseGuess "+42" = some (decimalValue ['4', '2']) ∧
    ((iterate 42 "+42").2 = true ↔ decimalValue ['4', '2'] = 42) :=
  c10_plus_sign_accepted 42 ['4', '2'] "+42" (by simp) (by decide) (by decide)
    (by rfl)

/-- C4: a failed read aborts the run at once with the fixed diagnostic
"Failed to read line" and with no comparison feedback on stdout (only the
banner, the debug line and the pending prompt); and a crash is reachable
in no other way: a run whose read events all succeed never crashes. -/
theorem c4_fatal_read_failure (s : Nat) :
    (∀ rest, runGame s (none :: rest) =
        RunResult.crashed [banner, secretLine s, prompt] readFailMsg) ∧
    (∀ evs : List (Option String), (∀ e ∈ evs, e ≠ none) →
      ∀ out m, runLoop s evs ≠ RunResult.crashed out m) := by
  constructor
  · intro rest
    rfl
  · intro evs
    induction evs with
    | nil =>
        intro h out m hc
        simp [runLoop] at hc
    | cons e rest ih =>
        intro h out m hc
        have hrest : ∀ e ∈ rest, e ≠ none :=
          fun x hx => h x (List.mem_cons_of_mem _ hx)
        cases e with
        | none => exact (h none (List.mem_cons_self _ _)) rfl
        | some line =>
            rcases hi : iterate s line with ⟨outs, won⟩
            cases won with
            | true =>
                simp only [runLoop, hi] at hc
                exact RunResult.noConfusion hc
            | false =>
                simp only [runLoop, hi] at hc
                obtain ⟨o, hr, -⟩ := RunResult.prependOut_crashed hc
                exact ih hrest o m hr

/-- C4 witness: secret 7 with an immediately failing read, and a
crash-free run on the successful event list `[some "1"]`. -/
theorem c4_fatal_read_failure_witness :
    runGame 7 [none] = RunResult.crashed [banner, secretLine 7, prompt] readFailMsg ∧
    runLoop 7 [some "1"] ≠ RunResult.crashed [prompt] readFailMsg :=
  ⟨(c4_fatal_read_failure 7).1 [],
   (c4_fatal_read_failure 7).2 [some "1"] (by simp) [prompt] readFailMsg⟩

/-- C5: the secret never changes after generation: a single loop
iteration, and any sequence of iterations over any input lines (valid or
invalid), preserves the secret component of the state, so every
comparison uses the secret generated before the loop was entered. -/
theorem c5_secret_never_changes :
    (∀ (st : GameState) (line : String), ((step st line).1).secret = st.secret) ∧
    (∀ (st : GameState) (lines : List String), (runSteps st lines).secret = st.secret) := by
  constructor
  · exact step_secret_eq
  · intro st lines
    induction lines generalizing st with
    | nil => rfl
    | cons l ls ih =>
        rw [runSteps, ih, step_secret_eq]

/-- C6: the secret is an integer in the closed range [1, 100], inclusive
on both bounds, and it is generated once at process start: the debug line
printed before any loop output already shows the very value the whole
run uses. -/
theorem c6_secret_in_range (seed : Nat) (evs : List (Option String)) :
    1 ≤ gen_range_1_100 seed ∧ gen_range_1_100 seed ≤ 100 ∧
    (mainProgram seed evs).out.take 2 =
      [banner, secretLine (gen_range_1_100 seed)] := by
  refine ⟨Nat.le_add_right 1 _, ?_, ?_⟩
  · simp only [gen_range_1_100]
    omega
  · unfold mainProgram runGame
    rw [RunResult.out_prependOut]
    rfl

/-- C7: stdout of a winning run opens with the title banner and then the
debug line revealing the secret, the first loop output after them is a
prompt, and the final line is the win message. -/
theorem c7_output_order (s : Nat) (evs : List (Option String)) (out : List String)
    (h : runGame s evs = RunResult.won out) :
    out.take 2 = [banner, secretLine s] ∧
    out[2]? = some prompt ∧
    out.getLast? = some "You win!!" := by
  unfold runGame at h
  rw [RunResult.prependOut_eq_won] at h
  obtain ⟨o, hr, rfl⟩ := h
  obtain ⟨h1, h2⟩ := runLoop_won_out hr
  refine ⟨rfl, ?_, ?_⟩
  · cases o with
    | nil => simp at h1
    | cons a t =>
        simp only [List.head?] at h1
        injection h1 with h1
        subst h1
        simp
  · rw [List.getLast?_append, h2]
    rfl

/-- C7 witness: secret 42, single winning input "42". -/
theorem c7_output_order_witness :
    ([banner, secretLine 42, prompt, echoMsg 42, "You win!!"] : List String).take 2 =
      [banner, secretLine 42] ∧
    ([banner, secretLine 42, prompt, echoMsg 42, "You win!!"] : List String)[2]? =
      some prompt ∧
    ([banner, secretLine 42, prompt, echoMsg 42, "You win!!"] : List String).getLast? =
      some "You win!!" :=
  c7_output_order 42 [some "42"] _ (by rfl)

end GuessingGame

/-! ### Concrete evaluations of the embedding

Sanity checks that the embedded parser and game compute the expected
results on the inputs discussed in the specification. -/

example : GuessingGame.parseGuess "+42" = some 42 := by rfl
example : GuessingGame.parseGuess " 50 " = some 50 := by rfl
example : GuessingGame.parseGuess "fifty" = none := by rfl
example : GuessingGame.parseGuess "" = none := by rfl
example : GuessingGame.parseGuess "-5" = none := by rfl
example : GuessingGame.parseGuess "4294967295" = some 4294967295 := by rfl
example : GuessingGame.parseGuess "4294967296" = none := by rfl
example : GuessingGame.parseGuess "+" = none := by rfl
example : GuessingGame.runGame 50 [some "fifty", some "50"] =
    GuessingGame.RunResult.won [GuessingGame.banner, GuessingGame.secretLine 50,
      GuessingGame.prompt, GuessingGame.prompt, GuessingGame.echoMsg 50, "You win!!"] := by rfl
